import Mathlib

set_option maxRecDepth 4000

/-!
Shallow embedding of the shell-t command pipeline engine and its
security-policy layer, together with theorems checking the repository's
specification against the code.

Conventions used throughout:
* Rust `String`/`&str` values are Lean `String`s; where the code operates on
  raw characters we work on `List Char` (the `.data` of a `String`).
  Rust `str::len` is a *byte* count, modelled by `utf8Len` below.
* `HashSet<String>`/`Vec<String>` membership is modelled by `List String`
  membership.
* Fallible Rust functions returning `Result<T, E>` become `Except E T`.
* A possible Rust panic is modelled by `Option`: `none` means the code
  panics on that input.
* `std::time::Instant` is modelled by a `Nat` timestamp (in seconds);
  `Instant::duration_since` saturates at zero, which matches `Nat`
  subtraction.
-/

deriving instance DecidableEq for Except

namespace ShellT

/-! ## Character and string helpers -/

/-- The single-quote character (U+0027). -/
def squote : Char := Char.ofNat 39

/-- The double-quote character (U+0022). -/
def dquote : Char := Char.ofNat 34

/-- ASCII whitespace as recognised by `str::trim` on the inputs that occur
here (the Rust version trims full Unicode whitespace; every claim only
involves these characters). -/
def isWsChar (c : Char) : Bool := c = ' ' || c = '\t' || c = '\n' || c = '\r'

/-- Trim whitespace from both ends of a character list (`str::trim`). -/
def trimChars (l : List Char) : List Char :=
  ((l.dropWhile isWsChar).reverse.dropWhile isWsChar).reverse

/-- Split a character list on a separator character (`str::split(sep)`),
accumulating the current piece in `acc` (kept reversed). -/
def splitChar (sep : Char) : List Char → List Char → List (List Char)
  | [], acc => [acc.reverse]
  | c :: rest, acc =>
    if c = sep then acc.reverse :: splitChar sep rest []
    else splitChar sep rest (c :: acc)

/-- Number of bytes of a character in UTF-8 (Rust `char::len_utf8`). -/
def charUtf8Len (c : Char) : Nat :=
  if c.toNat < 0x80 then 1
  else if c.toNat < 0x800 then 2
  else if c.toNat < 0x10000 then 3
  else 4

/-- The UTF-8 byte length of a character list (Rust `str::len`). -/
def utf8Len (l : List Char) : Nat := (l.map charUtf8Len).sum

/-- The UTF-8 byte length of a string (Rust `str::len`). -/
def strLen (s : String) : Nat := utf8Len s.data

/-- Whether `needle` occurs as a prefix of `hay` (Rust `str::starts_with`). -/
def listIsPrefix : List Char → List Char → Bool
  | [], _ => true
  | _ :: _, [] => false
  | a :: as_, b :: bs => a = b && listIsPrefix as_ bs

/-- Whether `needle` occurs as a contiguous sublist of `hay`
(Rust `str::contains` for a literal pattern). -/
def containsSub (needle : List Char) : List Char → Bool
  | [] => listIsPrefix needle []
  | c :: rest => listIsPrefix needle (c :: rest) || containsSub needle rest

/-- Rust `str::contains` on strings. -/
def strContains (s pat : String) : Bool := containsSub pat.data s.data

/-- Rust `str::starts_with` on strings. -/
def strStartsWith (s pre : String) : Bool := listIsPrefix pre.data s.data

/-- Whether `needle` occurs as a suffix (Rust `str::ends_with`). -/
def strEndsWith (s suf : String) : Bool :=
  listIsPrefix suf.data.reverse s.data.reverse

/-! ## Parser (`src/parser.rs`)

`Command` is the parsed pipeline stage (`parser.rs`, `struct Command`). -/

structure Command where
  program : String
  args : List String
  input_redirect : Option String
  output_redirect : Option String
  append : Bool
  background : Bool
deriving DecidableEq, Repr

/-- Tokenizer loop of `parse_command` (`parser.rs` lines 36-67): iterate the
characters of one pipe segment, honouring single/double quotes, splitting on
unquoted spaces.  `cur` is the in-progress token, `inQuotes`/`quoteChar`
mirror the mutable flags of the source. -/
def tokenizeGo : List Char → List Char → Bool → Char → List String
  | [], cur, _, _ => if cur = [] then [] else [String.mk cur]
  | c :: rest, cur, inQuotes, quoteChar =>
    if (c = dquote || c = squote) && !inQuotes then
      tokenizeGo rest cur true c
    else if (c = dquote || c = squote) && inQuotes && c = quoteChar then
      tokenizeGo rest cur false ' '
    else if c = ' ' && !inQuotes then
      (if cur = [] then tokenizeGo rest [] inQuotes quoteChar
       else String.mk cur :: tokenizeGo rest [] inQuotes quoteChar)
    else
      tokenizeGo rest (cur ++ [c]) inQuotes quoteChar

/-- Tokenize one pipe segment into its whitespace/quote-delimited parts. -/
def tokenize (l : List Char) : List String := tokenizeGo l [] false ' '

/-- Accumulator of the token-assignment loop of `parse_command`
(`parser.rs` lines 73-78): the six mutable locals of the source. -/
structure CmdAccum where
  program : String
  args : List String
  input_redirect : Option String
  output_redirect : Option String
  append : Bool
  background : Bool
deriving DecidableEq

def initAccum : CmdAccum := ⟨"", [], none, none, false, false⟩

/-- The token-assignment loop of `parse_command` (`parser.rs` lines 80-124).
The second component of the result is the final value of the loop index `i`
(each arm advances `i` by the number of tokens it consumed, exactly as the
source does). -/
def processParts : List String → CmdAccum → Nat → Except String (CmdAccum × Nat)
  | [], st, i => .ok (st, i)
  | p :: rest, st, i =>
    if p = "<" then
      match rest with
      | f :: rest2 => processParts rest2 { st with input_redirect := some f } (i + 2)
      | [] => .error "Missing input file after \x27<\x27"
    else if p = ">" then
      match rest with
      | f :: rest2 =>
        processParts rest2 { st with output_redirect := some f, append := false } (i + 2)
      | [] => .error "Missing output file after \x27>\x27"
    else if p = ">>" then
      match rest with
      | f :: rest2 =>
        processParts rest2 { st with output_redirect := some f, append := true } (i + 2)
      | [] => .error "Missing output file after \x27>>\x27"
    else if p = "&" then
      processParts rest { st with background := true } (i + 1)
    else if st.program = "" then
      processParts rest { st with program := p } (i + 1)
    else
      processParts rest { st with args := st.args ++ [p] } (i + 1)

/-- The empty-segment check of `parse_command` (`parser.rs` lines 25-32):
an empty trimmed segment at index `i` is an error when `i < n - 1`, or when
`i = n - 1` and `n > 1`. -/
def missingCmdAfterPipeGo (n : Nat) : List (List Char) → Nat → Bool
  | [], _ => false
  | s :: rest, i =>
    if s = [] && decide (i < n - 1) then true
    else if s = [] && i = n - 1 && decide (1 < n) then true
    else missingCmdAfterPipeGo n rest (i + 1)

def missingCmdAfterPipe (segs : List (List Char)) : Bool :=
  missingCmdAfterPipeGo segs.length segs 0

/-- The per-segment loop of `parse_command` (`parser.rs` lines 36-138).
`total` is `pipe_commands.len()`.  Note that the source compares the *loop
index* `i` (which at loop exit equals the number of tokens of the segment)
with `pipe_commands.len() - 1` when computing `background` — we reproduce
that comparison verbatim via the `consumed` counter. -/
def parseSegments (total : Nat) : List (List Char) → List Command → Except String (List Command)
  | [], acc => .ok acc
  | seg :: rest, acc =>
    let parts := tokenize seg
    if parts = [] then parseSegments total rest acc
    else
      match processParts parts initAccum 0 with
      | .error e => .error e
      | .ok (st, consumed) =>
        if st.program = "" then .error "No command specified"
        else
          parseSegments total rest (acc ++ [{
            program := st.program
            args := st.args
            input_redirect := st.input_redirect
            output_redirect := st.output_redirect
            append := st.append
            background := st.background && decide (consumed = total - 1) }])

/-- The pipe segments of a line: `input.trim().split('|').map(|s| s.trim())`
(`parser.rs` lines 17, 22). -/
def pipeSegments (input : String) : List (List Char) :=
  (splitChar '|' (trimChars input.data) []).map trimChars

/-- Function `parse_command` (`parser.rs` lines 16-145): trim the line, split on
`|`, reject empty pipe segments, then build one `Command` per non-empty
segment. -/
def parse_command (input : String) : Except String (List Command) :=
  if trimChars input.data = [] then .error "Empty command"
  else
    let pipeCmds := pipeSegments input
    if missingCmdAfterPipe pipeCmds then .error "Missing command after pipe"
    else
      match parseSegments pipeCmds.length pipeCmds [] with
      | .error e => .error e
      | .ok cmds => if cmds = [] then .error "No commands to execute" else .ok cmds

/-! ## Error types (`src/error.rs`) -/

inductive SecurityError where
  | PathTraversal (msg : String)
  | DangerousCommand (msg : String)
  | InvalidInput (msg : String)
  | PermissionDenied (msg : String)
  | ResourceLimitExceeded (msg : String)
deriving DecidableEq

inductive ShellError where
  | CommandExecution (msg : String)
  | Parse (msg : String)
  | SecurityViolation (msg : String)
  | Config (msg : String)
  | FileSystem (msg : String)
  | Process (msg : String)
  | Security (e : SecurityError)
deriving DecidableEq

/-- Conversion `impl From<SecurityError> for ShellError` (`error.rs`). -/
def SecurityError.intoShell (e : SecurityError) : ShellError := .Security e

abbrev ShellResult (α : Type) := Except ShellError α

/-! ## Configuration (`src/config.rs`) -/

/-- Struct `SecurityConfig` (`config.rs` lines 17-26).  The two `HashSet<String>`
fields are modelled as lists; the logging/auditing flags are carried for
completeness. -/
structure SecurityConfig where
  enable_logging : Bool
  enable_auditing : Bool
  max_command_length : Nat
  max_arg_count : Nat
  allowed_commands : List String
  blocked_commands : List String
  validate_paths : Bool
  sanitize_input : Bool
deriving DecidableEq

/-- Struct `ResourceLimits` (`config.rs` lines 30-35). -/
structure ResourceLimits where
  max_background_processes : Nat
  max_pipeline_length : Nat
  command_timeout : Nat
  max_memory_mb : Nat
deriving DecidableEq

/-- Struct `Config` (`config.rs` lines 8-13), restricted to the components the
claims touch (`ui`/`interpreters` play no role in them). -/
structure Config where
  security : SecurityConfig
  limits : ResourceLimits
deriving DecidableEq

/-- Defaults `impl Default for SecurityConfig` (`config.rs` lines 67-90). -/
def SecurityConfig.default : SecurityConfig where
  enable_logging := true
  enable_auditing := true
  max_command_length := 4096
  max_arg_count := 100
  allowed_commands := ["ls", "pwd", "cd", "cat", "grep", "head", "tail", "wc", "sort", "uniq"]
  blocked_commands := ["rm", "rmdir", "mv", "cp", "chmod", "chown", "sudo", "su"]
  validate_paths := true
  sanitize_input := true

/-- Defaults `impl Default for ResourceLimits` (`config.rs` lines 92-101). -/
def ResourceLimits.default : ResourceLimits where
  max_background_processes := 10
  max_pipeline_length := 10
  command_timeout := 300
  max_memory_mb := 512

def Config.default : Config where
  security := SecurityConfig.default
  limits := ResourceLimits.default

/-! ## Security manager (`src/security.rs`) -/

/-- The `usize` modulus: `active_processes` is an `AtomicUsize`, whose
`fetch_add`/`fetch_sub` wrap modulo `2^64`. -/
def USIZE : Nat := 2 ^ 64

/-- Effect of `SecurityManager::register_process` (`security.rs` lines
47-52) on the active-process counter: `fetch_add(1)`. -/
def register_process (c : Nat) : Nat := (c + 1) % USIZE

/-- Effect of `Drop for ProcessGuard` (`security.rs` lines 120-124) on the
active-process counter: `fetch_sub(1)`, which wraps on underflow. -/
def processGuardDrop (c : Nat) : Nat := (c + (USIZE - 1)) % USIZE

/-- Method `SecurityManager::can_start_process` (`security.rs` lines 36-44). -/
def can_start_process (c : Nat) (config : Config) : ShellResult Unit :=
  if c ≥ config.limits.max_background_processes then
    .error (SecurityError.ResourceLimitExceeded
      "Maximum background processes reached").intoShell
  else .ok ()

/-- Method `SecurityManager::check_rate_limit` (`security.rs` lines 55-71) for a
single key: given that key's stored timestamp vector and the current
instant, return the call's result together with the vector as it is left in
the map.  `entries.retain(|&t| now.duration_since(t) < 60s)` prunes first
(and that pruning persists even on rejection); then the call is rejected
when 10 or more entries remain, else `now` is appended. -/
def check_rate_limit (entries : List Nat) (now : Nat) :
    ShellResult Unit × List Nat :=
  let pruned := entries.filter (fun t => now - t < 60)
  if pruned.length ≥ 10 then
    ((.error (SecurityError.ResourceLimitExceeded "Rate limit exceeded").intoShell),
      pruned)
  else (.ok (), pruned ++ [now])

/-- Run a sequence of `check_rate_limit` calls (one key) at the given
instants, returning the list of per-call acceptance flags and the final
stored vector. -/
def rateLimitRun : List Nat → List Nat → List Bool × List Nat
  | [], entries => ([], entries)
  | now :: rest, entries =>
    let (res, entries2) := check_rate_limit entries now
    let (flags, final) := rateLimitRun rest entries2
    (res.isOk :: flags, final)

/-! ## Input sanitization (`src/security.rs`, `mod validation`) -/

/-- Rust `char::is_control`: the Unicode `Cc` category, i.e. U+0000–U+001F
and U+007F–U+009F. -/
def isControlChar (c : Char) : Bool :=
  c.toNat < 0x20 || (0x7F ≤ c.toNat && c.toNat ≤ 0x9F)

/-- One regex `o.*cl` matched against one newline-free line: some position
carries `o` as a prefix with `cl` occurring somewhere after it. -/
def pairMatchLine (o cl : List Char) : List Char → Bool
  | [] => listIsPrefix o [] && containsSub cl (List.drop o.length ([] : List Char))
  | c :: rest =>
    (listIsPrefix o (c :: rest) && containsSub cl (List.drop o.length (c :: rest)))
      || pairMatchLine o cl rest

/-- Model of `Regex::is_match` for the concrete patterns of
`check_suspicious_patterns`: each is of the form `o.*cl` with newline-free
literals `o`, `cl`, and `.` does not match `\n` in the `regex` crate, so the
pattern matches the input iff some `\n`-separated line of it matches. -/
def regexPairMatch (o cl : List Char) (input : List Char) : Bool :=
  (splitChar '\n' input []).any (pairMatchLine o cl)

/-- The pattern table of `check_suspicious_patterns` (`security.rs` lines
157-164): the regex source text together with its opening and closing
literal. -/
def suspiciousPatterns : List (String × List Char × List Char) :=
  [("\\$\\(.*\\)", "$(".data, ")".data),
   ("`.*`", "`".data, "`".data),
   ("\\$\\\x7b.*\\\x7d", "$\x7b".data, "\x7d".data),
   (";.*;", ";".data, ";".data),
   ("&&.*&&", "&&".data, "&&".data),
   ("\\|\\|.*\\|\\|", "||".data, "||".data)]

def checkPatternsGo (input : List Char) :
    List (String × List Char × List Char) → ShellResult Unit
  | [] => .ok ()
  | (src, o, cl) :: rest =>
    if regexPairMatch o cl input then
      .error (SecurityError.DangerousCommand
        ("Suspicious pattern detected: " ++ src)).intoShell
    else checkPatternsGo input rest

/-- Function `validation::check_suspicious_patterns` (`security.rs` lines 156-177). -/
def check_suspicious_patterns (input : List Char) : ShellResult Unit :=
  checkPatternsGo input suspiciousPatterns

/-- Rust byte-slicing `&s[..n]`: keep the first `n` bytes.  `none` models
the panic raised when `n` is not a character boundary (or out of range). -/
def byteTake : List Char → Nat → Option (List Char)
  | _, 0 => some []
  | [], _ + 1 => none
  | c :: rest, n + 1 =>
    if charUtf8Len c ≤ n + 1 then (byteTake rest (n + 1 - charUtf8Len c)).map (c :: ·)
    else none

/-- Function `validation::sanitize_input` (`security.rs` lines 133-153).  The result
is `none` when the Rust code panics (byte-slicing at a non-boundary in the
final truncation step). -/
def sanitize_input (input : String) (config : Config) : Option (ShellResult String) :=
  if !config.security.sanitize_input then some (.ok input)
  else
    let sanitized := input.data.filter (fun c => c ≠ Char.ofNat 0)
    let sanitized := sanitized.filter (fun c => !isControlChar c || c = '\n' || c = '\t')
    match check_suspicious_patterns sanitized with
    | .error e => some (.error e)
    | .ok _ =>
      if utf8Len sanitized > config.security.max_command_length then
        (byteTake sanitized config.security.max_command_length).map
          (fun l => .ok (String.mk l))
      else some (.ok (String.mk sanitized))

/-! ## Path validation (`src/security.rs`, `mod validation`) -/

/-- The fixed allow-list of base directories for absolute paths
(`security.rs` line 192). -/
def allowed_dirs : List String := ["/tmp", "/var/tmp", "/home", "/Users"]

/-- Function `validation::validate_file_path` (`security.rs` lines 180-209).
`PathBuf::is_absolute` on Unix means the path starts with `/`.  The
`metadata` block of the source (lines 202-206) has no observable effect and
is omitted. -/
def validate_file_path (path : String) (config : Config) : ShellResult String :=
  if !config.security.validate_paths then .ok path
  else if strContains path ".." then
    .error (SecurityError.PathTraversal path).intoShell
  else if strStartsWith path "/" &&
      !(allowed_dirs.any (fun d => strStartsWith path d)) then
    .error (SecurityError.PathTraversal
      "Absolute path not in allowed directories").intoShell
  else .ok path

/-- Modelled from the spec: a "parent-directory segment" of a path is a
`..` component of its `/`-separated decomposition.  This definition follows
the spec's words (the code itself checks for `..` as a plain substring) and
exists to compare the two. -/
def hasParentDirSegment (path : String) : Bool :=
  (splitChar '/' path.data []).any (fun seg => seg = ['.', '.'])

/-! ## Argument validation (`src/security.rs`, `mod validation`) -/

/-- The `dangerous_chars` array of `validation::validate_arguments`
(`security.rs` line 222): `; & | ` $ ( ) < > \` — note that it contains
neither the double-quote nor the single-quote character. -/
def dangerous_chars : List Char :=
  [';', '&', '|', Char.ofNat 96, '$', '(', ')', '<', '>', '\\']

/-- The per-argument loop of `validate_arguments` (`security.rs` lines
217-228): length check, then dangerous-character check, fail-fast. -/
def validateArgsLoop (config : Config) : List String → ShellResult Unit
  | [] => .ok ()
  | arg :: rest =>
    if strLen arg > config.security.max_command_length then
      .error (SecurityError.InvalidInput "Argument too long").intoShell
    else if arg.data.any (fun c => c ∈ dangerous_chars) then
      .error (SecurityError.DangerousCommand
        ("Dangerous character in argument: " ++ arg)).intoShell
    else validateArgsLoop config rest

/-- Function `validation::validate_arguments` (`security.rs` lines 212-231). -/
def validate_arguments (args : List String) (config : Config) : ShellResult Unit :=
  if args.length > config.security.max_arg_count then
    .error (SecurityError.InvalidInput "Too many arguments").intoShell
  else validateArgsLoop config args

/-! ## Config-level validation (`src/config.rs`, `mod validation`) -/

namespace CfgValidation

/-- Function `config::validation::validate_command` (`config.rs` lines 212-229):
length check, then block-set, then (when non-empty) allow-set. -/
def validate_command (config : Config) (command : String) : ShellResult Unit :=
  if strLen command > config.security.max_command_length then
    .error (SecurityError.InvalidInput "Command too long").intoShell
  else if command ∈ config.security.blocked_commands then
    .error (SecurityError.DangerousCommand command).intoShell
  else if config.security.allowed_commands ≠ [] ∧
      command ∉ config.security.allowed_commands then
    .error (SecurityError.DangerousCommand
      ("Command not in whitelist: " ++ command)).intoShell
  else .ok ()

end CfgValidation

/-! ## Executor (`src/executor.rs`)

`executor.rs` reads the configuration fields `security.command_whitelist`,
`security.command_blacklist`, `limits.max_pipeline_length` and
`limits.max_arg_length`, which differ from the `Config` declared in
`config.rs` (the repository's files are mutually inconsistent); the
configuration is modelled here exactly as the executor consumes it. -/

structure ExecSecurityConfig where
  command_whitelist : Option (List String)
  command_blacklist : Option (List String)
deriving DecidableEq

structure ExecLimits where
  max_pipeline_length : Nat
  max_arg_length : Nat
deriving DecidableEq

structure ExecConfig where
  security : ExecSecurityConfig
  limits : ExecLimits
deriving DecidableEq

/-- Environment abstracting the OS effects of `execute_pipeline`: whether
the spawn of stage `i` succeeds, whether opening a redirection file
succeeds, and whether waiting on child `j` succeeds. -/
structure ExecEnv where
  spawnOk : Nat → Bool
  openInputOk : String → Bool
  openOutputOk : String → Bool
  waitOk : Nat → Bool

/-- A call from the executor into the shared `SecurityManager`.
`registerProcess` is the guard acquisition `SecurityManager::register_process`;
`recordCommand` is `SecurityManager::record_command`.  (The body of
`execute_pipeline` only ever performs `record_command`; the constructor for
guard acquisition exists so that the trace can express its absence.) -/
inductive SecOp where
  | registerProcess
  | recordCommand (cmd : String)
deriving DecidableEq

/-- Observable state threaded through the stage loop of `execute_pipeline`:
`hasPrev` is `prev_stdout.is_some()`, `spawned` is `children.len()`, and
`secOps` records every call into the `SecurityManager`, in order. -/
structure PipeState where
  hasPrev : Bool
  spawned : Nat
  secOps : List SecOp
deriving DecidableEq

def initPipeState : PipeState := ⟨false, 0, []⟩

/-- Number of `register_process` calls (guard acquisitions) in a trace. -/
def countRegisters (ops : List SecOp) : Nat :=
  (ops.filter (fun o => o = .registerProcess)).length

namespace Executor

/-- Method `CommandExecutor::resolve_command` (`executor.rs` lines 104-114). -/
def resolve_command (program : String) (args : List String) :
    ShellResult (String × List String) :=
  if strEndsWith program ".py" then .ok ("python3", program :: args)
  else if strEndsWith program ".rb" then .ok ("ruby", program :: args)
  else if strEndsWith program ".js" then .ok ("node", program :: args)
  else .ok (program, args)

/-- Method `CommandExecutor::validate_command` (`executor.rs` lines 117-131):
whitelist check (when configured), then blacklist check (when configured). -/
def validate_command (config : ExecConfig) (command : String) : ShellResult Unit :=
  if (match config.security.command_whitelist with
      | some wl => decide (command ∉ wl)
      | none => false) then
    .error (.SecurityViolation ("Command not in whitelist: " ++ command))
  else if (match config.security.command_blacklist with
      | some bl => decide (command ∈ bl)
      | none => false) then
    .error (.SecurityViolation ("Command blacklisted: " ++ command))
  else .ok ()

/-- Method `CommandExecutor::validate_args` (`executor.rs` lines 134-145):
per-argument path-traversal check then length check, fail-fast. -/
def validate_args (config : ExecConfig) : List String → ShellResult Unit
  | [] => .ok ()
  | arg :: rest =>
    if strContains arg "../" || strContains arg "..\\" then
      .error (.SecurityViolation "Path traversal detected")
    else if strLen arg > config.limits.max_arg_length then
      .error (.SecurityViolation "Argument too long")
    else validate_args config rest

/-- The stage loop of `execute_pipeline` (`executor.rs` lines 35-90).
`n` is `commands.len()`, `i` the `enumerate` index.  Per non-skipped stage:
resolve, validate command, validate args, wire stdin (a pending pipe from
the previous stage is taken, else an input redirection is opened), wire
stdout (piped for non-final stages, else an output redirection is opened in
truncate or append mode), spawn, and on success record the command with the
`SecurityManager`.  The pair returned is the final observable state and the
error on which the source early-returns, if any. -/
def execStages (config : ExecConfig) (env : ExecEnv) (n : Nat) :
    List Command → Nat → PipeState → PipeState × Option ShellError
  | [], _, st => (st, none)
  | cmd :: rest, i, st =>
    if cmd.program = "" then execStages config env n rest (i + 1) st
    else
      match resolve_command cmd.program cmd.args with
      | .error e => (st, some e)
      | .ok (actualCmd, actualArgs) =>
        match validate_command config actualCmd with
        | .error e => (st, some e)
        | .ok _ =>
          match validate_args config actualArgs with
          | .error e => (st, some e)
          | .ok _ =>
            let stdinErr : Option ShellError :=
              if st.hasPrev then none
              else match cmd.input_redirect with
                | some f =>
                  if env.openInputOk f then none
                  else some (.FileSystem ("Error opening input file " ++ f))
                | none => none
            match stdinErr with
            | some e => ({ st with hasPrev := false }, some e)
            | none =>
              let stdoutErr : Option ShellError :=
                if i < n - 1 then none
                else match cmd.output_redirect with
                  | some f =>
                    if env.openOutputOk f then none
                    else some (.FileSystem ("Error opening output file " ++ f))
                  | none => none
              match stdoutErr with
              | some e => ({ st with hasPrev := false }, some e)
              | none =>
                if env.spawnOk i then
                  execStages config env n rest (i + 1)
                    { hasPrev := decide (i < n - 1)
                      spawned := st.spawned + 1
                      secOps := st.secOps ++ [.recordCommand actualCmd] }
                else
                  ({ st with hasPrev := false },
                    some (.CommandExecution ("Failed to execute " ++ actualCmd)))

/-- The wait loop of `execute_pipeline` (`executor.rs` lines 92-98): wait on
the spawned children in order, early-returning on the first wait failure. -/
def waitChildren (env : ExecEnv) : Nat → Nat → ShellResult Unit
  | 0, _ => .ok ()
  | k + 1, j =>
    if env.waitOk j then waitChildren env k (j + 1)
    else .error (.Process "Process wait error")

/-- Method `CommandExecutor::execute_pipeline` (`executor.rs` lines 23-101),
returning both the source's `ShellResult<()>` and the observable state
(spawn count and `SecurityManager` call trace). -/
def execute_pipeline (config : ExecConfig) (env : ExecEnv)
    (commands : List Command) : ShellResult Unit × PipeState :=
  if commands.isEmpty then (.ok (), initPipeState)
  else if commands.length > config.limits.max_pipeline_length then
    (.error (.Process "Pipeline too long"), initPipeState)
  else
    match execStages config env commands.length commands 0 initPipeState with
    | (st, some e) => (.error e, st)
    | (st, none) =>
      if !((commands.getLast?.map (·.background)).getD false) then
        (waitChildren env st.spawned 0, st)
      else (.ok (), st)

end Executor

/-! ## Guard-operation sequences (for the `ProcessGuard` balance claims)

An abstract run of guard acquisitions (`SecurityManager::register_process`)
and releases (`ProcessGuard::drop`) against the shared active-process
counter, in an arbitrary interleaving/nesting. -/

inductive GuardOp where
  | acquire
  | release
deriving DecidableEq

/-- One guard operation acting on the active-process counter. -/
def guardStep (c : Nat) : GuardOp → Nat
  | .acquire => register_process c
  | .release => processGuardDrop c

/-- Apply a sequence of guard operations to the active-process counter. -/
def applyGuardOps (ops : List GuardOp) (c : Nat) : Nat :=
  ops.foldl guardStep c

def countAcquires : List GuardOp → Nat
  | [] => 0
  | op :: rest => (match op with | .acquire => 1 | .release => 0) + countAcquires rest

def countReleases : List GuardOp → Nat
  | [] => 0
  | op :: rest => (match op with | .acquire => 0 | .release => 1) + countReleases rest

/-- An all-succeeding OS environment for concrete executor runs. -/
def allOkEnv : ExecEnv := ⟨fun _ => true, fun _ => true, fun _ => true, fun _ => true⟩

/-! ## Helper lemmas -/

lemma listIsPrefix_refl : ∀ l : List Char, listIsPrefix l l = true := by
  intro l
  induction l with
  | nil => rfl
  | cons c rest ih => simp [listIsPrefix, ih]

lemma listIsPrefix_append : ∀ (p t : List Char), listIsPrefix p (p ++ t) = true := by
  intro p t
  induction p with
  | nil => rfl
  | cons c rest ih => simp [listIsPrefix, ih]

lemma containsSub_of_isPrefix {p l : List Char} (h : listIsPrefix p l = true) :
    containsSub p l = true := by
  cases l with
  | nil => simpa [containsSub] using h
  | cons c rest => simp [containsSub, h]

lemma containsSub_append_left {p t : List Char} (h : containsSub p t = true) :
    ∀ x : List Char, containsSub p (x ++ t) = true := by
  intro x
  induction x with
  | nil => simpa using h
  | cons c rest ih => simp [containsSub, ih]

lemma mem_splitChar_containsSub {sep : Char} :
    ∀ (l acc seg : List Char), seg ∈ splitChar sep l acc →
      containsSub seg (acc.reverse ++ l) = true := by
  intro l
  induction l with
  | nil =>
    intro acc seg h
    simp [splitChar] at h
    subst h
    simpa using containsSub_of_isPrefix (listIsPrefix_refl acc.reverse)
  | cons c rest ih =>
    intro acc seg h
    by_cases hc : c = sep
    · simp [splitChar, hc] at h
      rcases h with h | h
      · subst h
        exact containsSub_of_isPrefix (listIsPrefix_append acc.reverse (c :: rest))
      · have := ih [] seg h
        simp at this
        simpa using containsSub_append_left this (acc.reverse ++ [c])
    · simp [splitChar, hc] at h
      have := ih (c :: acc) seg h
      simpa using this

lemma applyGuardOps_cons (op : GuardOp) (rest : List GuardOp) (c : Nat) :
    applyGuardOps (op :: rest) c = applyGuardOps rest (guardStep c op) := by
  simp only [applyGuardOps, List.foldl_cons]

lemma applyGuardOps_formula : ∀ (ops : List GuardOp) (c : Nat), c < USIZE →
    applyGuardOps ops c =
      (c + countAcquires ops + (USIZE - 1) * countReleases ops) % USIZE := by
  intro ops
  induction ops with
  | nil =>
    intro c hc
    simp [applyGuardOps, countAcquires, countReleases, Nat.mod_eq_of_lt hc]
  | cons op rest ih =>
    intro c hc
    have hU : 0 < USIZE := by norm_num [USIZE]
    rw [applyGuardOps_cons]
    cases op with
    | acquire =>
      have hg : guardStep c GuardOp.acquire = register_process c := rfl
      rw [hg, ih (register_process c) (Nat.mod_lt _ hU)]
      simp only [register_process, countAcquires, countReleases, USIZE]
      omega
    | release =>
      have hg : guardStep c GuardOp.release = processGuardDrop c := rfl
      rw [hg, ih (processGuardDrop c) (Nat.mod_lt _ hU)]
      simp only [processGuardDrop, countAcquires, countReleases, USIZE]
      omega

end ShellT

namespace ShellT

/-! ## Claim theorems -/

/-- C9: the `ProcessGuard` acquisition and release are balanced: each
`register_process` increments the active-process counter by exactly 1, each
guard drop decrements it by exactly 1, and any sequence of acquire/release
operations with equally many acquires and releases (hence any nesting of
N acquire+release cycles) returns the counter to its starting value. -/
theorem c9_process_guard_balanced :
    (∀ c : Nat, c + 1 < USIZE → register_process c = c + 1) ∧
    (∀ c : Nat, 0 < c → c < USIZE → processGuardDrop c = c - 1) ∧
    (∀ (ops : List GuardOp) (c : Nat), c < USIZE →
      countAcquires ops = countReleases ops → applyGuardOps ops c = c) := by
  refine ⟨?_, ?_, ?_⟩
  · intro c h
    simp only [register_process]
    exact Nat.mod_eq_of_lt h
  · intro c h0 hU
    simp only [processGuardDrop, USIZE] at *
    omega
  · intro ops c hc hbal
    rw [applyGuardOps_formula ops c hc, hbal]
    have h1 : c + countReleases ops + (USIZE - 1) * countReleases ops
        = c + USIZE * countReleases ops := by
      have hu : USIZE = (USIZE - 1) + 1 := by norm_num [USIZE]
      calc c + countReleases ops + (USIZE - 1) * countReleases ops
          = ((USIZE - 1) + 1) * countReleases ops + c := by ring
        _ = USIZE * countReleases ops + c := by rw [← hu]
        _ = c + USIZE * countReleases ops := by ring
    rw [h1, Nat.add_mul_mod_self_left]
    exact Nat.mod_eq_of_lt hc

/-- Witness for C9 at concrete inputs. -/
theorem c9_process_guard_balanced_witness :
    register_process 0 = 1 ∧ processGuardDrop 1 = 0 ∧
    applyGuardOps [GuardOp.acquire, GuardOp.release] 5 = 5 :=
  ⟨c9_process_guard_balanced.1 0 (by norm_num [USIZE]),
   c9_process_guard_balanced.2.1 1 (by norm_num) (by norm_num [USIZE]),
   c9_process_guard_balanced.2.2 [GuardOp.acquire, GuardOp.release] 5
     (by norm_num [USIZE]) (by decide)⟩

/-- C3: after every `check_rate_limit` call the stored timestamp list for
the key holds only timestamps within the trailing 60-second window; the
call succeeds and appends the current timestamp iff the pruned list has
fewer than 10 entries, and is rejected without recording the new timestamp
when the pruned list has 10 or more; concretely, 11 calls inside one window
accept the first 10 and reject the 11th, and a call after a 61-second gap
is accepted again. -/
theorem c3_rate_limit_sliding_window :
    (∀ (entries : List Nat) (now t : Nat),
      t ∈ (check_rate_limit entries now).2 → now - t < 60) ∧
    (∀ (entries : List Nat) (now : Nat),
      ((check_rate_limit entries now).1.isOk = true ↔
        (entries.filter (fun t => now - t < 60)).length < 10) ∧
      ((entries.filter (fun t => now - t < 60)).length < 10 →
        (check_rate_limit entries now).2 =
          entries.filter (fun t => now - t < 60) ++ [now]) ∧
      (10 ≤ (entries.filter (fun t => now - t < 60)).length →
        (check_rate_limit entries now).2 =
          entries.filter (fun t => now - t < 60))) ∧
    rateLimitRun (List.replicate 11 0 ++ [61]) [] =
      (List.replicate 10 true ++ [false, true], [61]) := by
  refine ⟨?_, ?_, by decide⟩
  · intro entries now t ht
    by_cases h : 10 ≤ (entries.filter (fun t => now - t < 60)).length
    · simp only [check_rate_limit, ge_iff_le, if_pos h] at ht
      have := List.of_mem_filter ht
      simpa using this
    · simp only [check_rate_limit, ge_iff_le, if_neg h] at ht
      rcases List.mem_append.1 ht with h1 | h1
      · have := List.of_mem_filter h1
        simpa using this
      · simp at h1
        omega
  · intro entries now
    by_cases h : 10 ≤ (entries.filter (fun t => now - t < 60)).length
    · simp [check_rate_limit, ge_iff_le, if_pos h, Except.isOk, Except.toBool]
      omega
    · simp [check_rate_limit, ge_iff_le, if_neg h, Except.isOk, Except.toBool]
      omega

/-- C4: a command in the block-set is always rejected, also when the
allow-set is non-empty and contains it (the block-set wins); and with a
non-empty allow-set, a command absent from it is rejected.  Both the
`config.rs` and the `executor.rs` version of `validate_command` satisfy
this. -/
theorem c4_blocklist_always_wins :
    (∀ (config : Config) (cmd : String),
      cmd ∈ config.security.blocked_commands →
      (CfgValidation.validate_command config cmd).isOk = false) ∧
    (∀ (config : Config) (cmd : String),
      config.security.allowed_commands ≠ [] →
      cmd ∉ config.security.allowed_commands →
      (CfgValidation.validate_command config cmd).isOk = false) ∧
    (∀ (config : ExecConfig) (cmd : String) (bl : List String),
      config.security.command_blacklist = some bl → cmd ∈ bl →
      (Executor.validate_command config cmd).isOk = false) ∧
    (∀ (config : ExecConfig) (cmd : String) (wl : List String),
      config.security.command_whitelist = some wl → cmd ∉ wl →
      (Executor.validate_command config cmd).isOk = false) := by
  refine ⟨?_, ?_, ?_, ?_⟩
  · intro config cmd hmem
    by_cases h1 : strLen cmd > config.security.max_command_length
    · simp [CfgValidation.validate_command, h1, Except.isOk, Except.toBool]
    · simp [CfgValidation.validate_command, h1, hmem, Except.isOk, Except.toBool]
  · intro config cmd hne hnmem
    by_cases h1 : strLen cmd > config.security.max_command_length
    · simp [CfgValidation.validate_command, h1, Except.isOk, Except.toBool]
    · by_cases h2 : cmd ∈ config.security.blocked_commands
      · simp [CfgValidation.validate_command, h1, h2, Except.isOk, Except.toBool]
      · simp [CfgValidation.validate_command, h1, h2, hne, hnmem, Except.isOk, Except.toBool]
  · intro config cmd bl hbl hmem
    cases hwl : config.security.command_whitelist with
    | none => simp [Executor.validate_command, hwl, hbl, hmem, Except.isOk, Except.toBool]
    | some wl =>
      by_cases h2 : cmd ∈ wl
      · simp [Executor.validate_command, hwl, hbl, hmem, h2, Except.isOk, Except.toBool]
      · simp [Executor.validate_command, hwl, h2, Except.isOk, Except.toBool]
  · intro config cmd wl hwl hnmem
    simp [Executor.validate_command, hwl, hnmem, Except.isOk, Except.toBool]

/-- Witness for C4 at concrete inputs: `rm` is accepted by neither version
even when placed in the allow-set, and a command outside a non-empty
allow-set is rejected. -/
theorem c4_blocklist_always_wins_witness :
    (CfgValidation.validate_command
        ⟨{ SecurityConfig.default with allowed_commands := ["rm"] },
          ResourceLimits.default⟩ "rm").isOk = false ∧
    (CfgValidation.validate_command Config.default "python3").isOk = false ∧
    (Executor.validate_command ⟨⟨some ["rm"], some ["rm"]⟩, ⟨10, 4096⟩⟩ "rm").isOk = false ∧
    (Executor.validate_command ⟨⟨some ["ls"], none⟩, ⟨10, 4096⟩⟩ "rm").isOk = false :=
  ⟨c4_blocklist_always_wins.1 _ "rm" (by decide),
   c4_blocklist_always_wins.2.1 Config.default "python3" (by decide) (by decide),
   c4_blocklist_always_wins.2.2.1 _ "rm" ["rm"] rfl (by decide),
   c4_blocklist_always_wins.2.2.2 _ "rm" ["ls"] rfl (by decide)⟩

/-- C5 counterexample: the function `validate_arguments` accepts an argument consisting
of a double quote, and one consisting of a single quote, under the default
configuration — the claim requires both to be rejected as dangerous
characters. -/
theorem c5_quote_chars_not_rejected :
    validate_arguments [String.mk [dquote]] Config.default = .ok () ∧
    validate_arguments [String.mk [squote]] Config.default = .ok () := by
  decide

lemma validateArgsLoop_isOk_iff (config : Config) : ∀ args : List String,
    (validateArgsLoop config args).isOk = true ↔
      ∀ a ∈ args, strLen a ≤ config.security.max_command_length ∧
        ∀ c ∈ a.data, c ∉ dangerous_chars := by
  intro args
  induction args with
  | nil => simp [validateArgsLoop, Except.isOk, Except.toBool]
  | cons a rest ih =>
    by_cases h1 : strLen a > config.security.max_command_length
    · have hstep : validateArgsLoop config (a :: rest) =
          .error (SecurityError.InvalidInput "Argument too long").intoShell := by
        simp [validateArgsLoop, h1]
      rw [hstep]
      constructor
      · intro h
        simp [Except.isOk, Except.toBool] at h
      · intro h
        exact absurd (h a (List.mem_cons_self a rest)).1 (by omega)
    · by_cases h2 : a.data.any (fun c => c ∈ dangerous_chars) = true
      · have hstep : validateArgsLoop config (a :: rest) =
            .error (SecurityError.DangerousCommand
              ("Dangerous character in argument: " ++ a)).intoShell := by
          simp [validateArgsLoop, h1, h2]
        rw [hstep]
        constructor
        · intro h
          simp [Except.isOk, Except.toBool] at h
        · intro h
          rcases List.any_eq_true.1 h2 with ⟨c, hc, hcd⟩
          exact absurd (of_decide_eq_true hcd) ((h a (List.mem_cons_self a rest)).2 c hc)
      · have hstep : validateArgsLoop config (a :: rest) = validateArgsLoop config rest := by
          simp [validateArgsLoop, h1, h2]
        rw [hstep, ih]
        constructor
        · intro h x hx
          rcases List.mem_cons.1 hx with rfl | hx
          · refine ⟨by omega, ?_⟩
            intro c hc hmem
            exact h2 (List.any_eq_true.2 ⟨c, hc, decide_eq_true hmem⟩)
          · exact h x hx
        · intro h x hx
          exact h x (List.mem_cons_of_mem a hx)

/-- C5 amended: the function `validate_arguments` accepts exactly when the argument
count is within `max_arg_count`, every argument's byte length is within
`max_command_length`, and no argument contains one of the dangerous
characters `; & | ` $ ( ) < > \` — a set that, contrary to the claim,
excludes the double-quote and single-quote characters. -/
theorem c5_argument_validation_amended :
    ∀ (config : Config) (args : List String),
      (validate_arguments args config).isOk = true ↔
        (args.length ≤ config.security.max_arg_count ∧
         ∀ a ∈ args, strLen a ≤ config.security.max_command_length ∧
           ∀ c ∈ a.data, c ∉ dangerous_chars) := by
  intro config args
  by_cases h : args.length > config.security.max_arg_count
  · have hstep : validate_arguments args config =
        .error (SecurityError.InvalidInput "Too many arguments").intoShell := by
      simp [validate_arguments, h]
    rw [hstep]
    constructor
    · intro hfalse
      simp [Except.isOk, Except.toBool] at hfalse
    · intro hcon
      exact absurd hcon.1 (by omega)
  · have hstep : validate_arguments args config = validateArgsLoop config args := by
      simp [validate_arguments, h]
    rw [hstep, validateArgsLoop_isOk_iff]
    have hc : args.length ≤ config.security.max_arg_count := by omega
    simp [hc]

lemma listIsPrefix_head {a b : Char} {as bs l : List Char}
    (ha : listIsPrefix (a :: as) l = true) (hb : listIsPrefix (b :: bs) l = true) :
    a = b := by
  cases l with
  | nil => simp [listIsPrefix] at ha
  | cons c t =>
    simp [listIsPrefix] at ha hb
    rw [ha.1, hb.1]

lemma endsWith_rb_not_py {p : String} (h : strEndsWith p ".rb" = true) :
    strEndsWith p ".py" = false := by
  by_contra hpy
  simp only [Bool.not_eq_false] at hpy
  have h1 : listIsPrefix ('b' :: ['r', '.']) p.data.reverse = true := h
  have h2 : listIsPrefix ('y' :: ['p', '.']) p.data.reverse = true := hpy
  have := listIsPrefix_head h1 h2
  simp at this

lemma endsWith_js_not_py {p : String} (h : strEndsWith p ".js" = true) :
    strEndsWith p ".py" = false := by
  by_contra hpy
  simp only [Bool.not_eq_false] at hpy
  have h1 : listIsPrefix ('s' :: ['j', '.']) p.data.reverse = true := h
  have h2 : listIsPrefix ('y' :: ['p', '.']) p.data.reverse = true := hpy
  have := listIsPrefix_head h1 h2
  simp at this

lemma endsWith_js_not_rb {p : String} (h : strEndsWith p ".js" = true) :
    strEndsWith p ".rb" = false := by
  by_contra hrb
  simp only [Bool.not_eq_false] at hrb
  have h1 : listIsPrefix ('s' :: ['j', '.']) p.data.reverse = true := h
  have h2 : listIsPrefix ('b' :: ['r', '.']) p.data.reverse = true := hrb
  have := listIsPrefix_head h1 h2
  simp at this

lemma countRegisters_append_record (ops : List SecOp) (c : String) :
    countRegisters (ops ++ [SecOp.recordCommand c]) = countRegisters ops := by
  simp [countRegisters, List.filter_append]

lemma execStages_no_register (config : ExecConfig) (env : ExecEnv) (n : Nat) :
    ∀ (cmds : List Command) (i : Nat) (st : PipeState),
      countRegisters (Executor.execStages config env n cmds i st).1.secOps =
        countRegisters st.secOps := by
  intro cmds
  induction cmds with
  | nil => intro i st; rfl
  | cons cmd rest ih =>
    intro i st
    rw [Executor.execStages]
    by_cases hp : cmd.program = ""
    · simp only [if_pos hp]
      exact ih _ _
    · simp only [if_neg hp]
      split
      · rfl
      · split
        · rfl
        · split
          · rfl
          · split
            · rfl
            · split
              · rfl
              · split
                · rw [ih]
                  exact countRegisters_append_record _ _
                · rfl

/-- C7: command resolution maps `.py`/`.rb`/`.js` names to
`python3`/`ruby`/`node` with the original name prepended to the arguments,
leaves every other name and its arguments unchanged, and in
`execute_pipeline` the policy checks run on the *resolved* program and
arguments (a policy violation against the resolved values aborts the
pipeline before any spawn). -/
theorem c7_interpreter_resolution :
    (∀ (p : String) (args : List String), strEndsWith p ".py" = true →
      Executor.resolve_command p args = .ok ("python3", p :: args)) ∧
    (∀ (p : String) (args : List String), strEndsWith p ".rb" = true →
      Executor.resolve_command p args = .ok ("ruby", p :: args)) ∧
    (∀ (p : String) (args : List String), strEndsWith p ".js" = true →
      Executor.resolve_command p args = .ok ("node", p :: args)) ∧
    (∀ (p : String) (args : List String),
      strEndsWith p ".py" = false → strEndsWith p ".rb" = false →
      strEndsWith p ".js" = false →
      Executor.resolve_command p args = .ok (p, args)) ∧
    (∀ (config : ExecConfig) (env : ExecEnv) (c : Command)
        (actual : String × List String) (e : ShellError),
      c.program ≠ "" → 1 ≤ config.limits.max_pipeline_length →
      Executor.resolve_command c.program c.args = .ok actual →
      Executor.validate_command config actual.1 = .error e →
      Executor.execute_pipeline config env [c] = (.error e, initPipeState)) ∧
    (∀ (config : ExecConfig) (env : ExecEnv) (c : Command)
        (actual : String × List String) (e : ShellError),
      c.program ≠ "" → 1 ≤ config.limits.max_pipeline_length →
      Executor.resolve_command c.program c.args = .ok actual →
      Executor.validate_command config actual.1 = .ok () →
      Executor.validate_args config actual.2 = .error e →
      Executor.execute_pipeline config env [c] = (.error e, initPipeState)) := by
  refine ⟨?_, ?_, ?_, ?_, ?_, ?_⟩
  · intro p args h
    simp [Executor.resolve_command, h]
  · intro p args h
    simp [Executor.resolve_command, h, endsWith_rb_not_py h]
  · intro p args h
    simp [Executor.resolve_command, h, endsWith_js_not_py h, endsWith_js_not_rb h]
  · intro p args h1 h2 h3
    simp [Executor.resolve_command, h1, h2, h3]
  · intro config env c actual e hpne hmax hres hval
    have hlen : ¬([c].length > config.limits.max_pipeline_length) := by
      simp; omega
    simp only [Executor.execute_pipeline, List.isEmpty_cons, Bool.false_eq_true,
      if_neg, hlen, ite_false, if_false]
    simp only [Executor.execStages, hpne, hres, hval, ite_false, if_neg]
  · intro config env c actual e hpne hmax hres hvc hva
    have hlen : ¬([c].length > config.limits.max_pipeline_length) := by
      simp; omega
    simp only [Executor.execute_pipeline, List.isEmpty_cons, Bool.false_eq_true,
      if_neg, hlen, ite_false, if_false]
    simp only [Executor.execStages, hpne, hres, hvc, hva, ite_false, if_neg]

/-- Witness for C7 at concrete inputs: the three interpreter suffixes, a
plain command, and a run of `execute_pipeline` in which the *resolved*
program (`python3`) is blacklisted, so a `script.py` stage is rejected with
no spawn even though `script.py` itself is not blacklisted. -/
theorem c7_interpreter_resolution_witness :
    Executor.resolve_command "script.py" ["arg1"] = .ok ("python3", ["script.py", "arg1"]) ∧
    Executor.resolve_command "script.rb" ["arg1"] = .ok ("ruby", ["script.rb", "arg1"]) ∧
    Executor.resolve_command "script.js" ["arg1"] = .ok ("node", ["script.js", "arg1"]) ∧
    Executor.resolve_command "ls" ["-la"] = .ok ("ls", ["-la"]) ∧
    Executor.execute_pipeline ⟨⟨none, some ["python3"]⟩, ⟨10, 4096⟩⟩ allOkEnv
        [⟨"script.py", [], none, none, false, false⟩] =
      (.error (.SecurityViolation "Command blacklisted: python3"), initPipeState) :=
  ⟨c7_interpreter_resolution.1 "script.py" ["arg1"] (by decide),
   c7_interpreter_resolution.2.1 "script.rb" ["arg1"] (by decide),
   c7_interpreter_resolution.2.2.1 "script.js" ["arg1"] (by decide),
   c7_interpreter_resolution.2.2.2.1 "ls" ["-la"] (by decide) (by decide) (by decide),
   c7_interpreter_resolution.2.2.2.2.1 ⟨⟨none, some ["python3"]⟩, ⟨10, 4096⟩⟩ allOkEnv
     ⟨"script.py", [], none, none, false, false⟩ ("python3", ["script.py"])
     (.SecurityViolation "Command blacklisted: python3")
     (by decide) (by decide) (by decide) (by decide)⟩

/-- Witness for C3 at concrete inputs. -/
theorem c3_rate_limit_sliding_window_witness :
    (5 : Nat) - 5 < 60 ∧ (check_rate_limit [] 5).2 = [] ++ [5] :=
  ⟨c3_rate_limit_sliding_window.1 [] 5 5 (by decide),
   by
    have h := (c3_rate_limit_sliding_window.2.1 [] 5).2.1 (by decide)
    simpa using h⟩

/-- C6 counterexample: a relative path with an embedded NUL byte is
*accepted* by `validate_file_path` under the default, path-validating
configuration, while the claim requires rejection with `InvalidInput`
(the function performs no NUL or length check at all). -/
theorem c6_nul_byte_not_rejected :
    Config.default.security.validate_paths = true ∧
    validate_file_path (String.mk ['a', Char.ofNat 0, 'b']) Config.default =
      .ok (String.mk ['a', Char.ofNat 0, 'b']) := by
  decide

/-- C6 amended: with path validation enabled, `validate_file_path` rejects
with `PathTraversal` any path containing `..` as a substring (in particular
every path with a parent-directory segment), rejects with `PathTraversal`
any absolute path whose string prefix matches none of
`/tmp`, `/var/tmp`, `/home`, `/Users`, and accepts every other path;
it performs no NUL-byte or length check. -/
theorem c6_path_validation_amended :
    ∀ (config : Config) (path : String), config.security.validate_paths = true →
      (hasParentDirSegment path = true →
        validate_file_path path config =
          .error (.Security (.PathTraversal path))) ∧
      (strContains path ".." = true →
        validate_file_path path config =
          .error (.Security (.PathTraversal path))) ∧
      (strContains path ".." = false → strStartsWith path "/" = true →
        allowed_dirs.any (fun d => strStartsWith path d) = false →
        validate_file_path path config =
          .error (.Security (.PathTraversal
            "Absolute path not in allowed directories"))) ∧
      (strContains path ".." = false →
        (strStartsWith path "/" = true →
          allowed_dirs.any (fun d => strStartsWith path d) = true) →
        validate_file_path path config = .ok path) := by
  intro config path hvp
  have hcontains : ∀ h : strContains path ".." = true,
      validate_file_path path config = .error (.Security (.PathTraversal path)) := by
    intro h
    simp [validate_file_path, hvp, h, SecurityError.intoShell]
  refine ⟨?_, hcontains, ?_, ?_⟩
  · intro hseg
    rcases List.any_eq_true.1 hseg with ⟨seg, hmem, hdd⟩
    have hdd' : seg = ['.', '.'] := of_decide_eq_true hdd
    subst hdd'
    have hsub := mem_splitChar_containsSub path.data [] ['.', '.'] hmem
    simp at hsub
    exact hcontains hsub
  · intro hnc habs hnal
    simp [validate_file_path, hvp, hnc, habs, hnal, SecurityError.intoShell]
  · intro hnc himp
    by_cases habs : strStartsWith path "/" = true
    · simp [validate_file_path, hvp, hnc, habs, himp habs]
    · simp only [Bool.not_eq_true] at habs
      simp [validate_file_path, hvp, hnc, habs]

/-- Witness for C6 at concrete inputs: a parent-directory segment, a
disallowed absolute path, an allowed absolute path, and a relative path. -/
theorem c6_path_validation_amended_witness :
    validate_file_path "../etc/passwd" Config.default =
      .error (.Security (.PathTraversal "../etc/passwd")) ∧
    validate_file_path "/etc/passwd" Config.default =
      .error (.Security (.PathTraversal "Absolute path not in allowed directories")) ∧
    validate_file_path "/tmp/notes.txt" Config.default = .ok "/tmp/notes.txt" ∧
    validate_file_path "notes.txt" Config.default = .ok "notes.txt" :=
  ⟨(c6_path_validation_amended Config.default "../etc/passwd" rfl).1 (by decide),
   (c6_path_validation_amended Config.default "/etc/passwd" rfl).2.2.1
     (by decide) (by decide) (by decide),
   (c6_path_validation_amended Config.default "/tmp/notes.txt" rfl).2.2.2
     (by decide) (fun _ => by decide),
   (c6_path_validation_amended Config.default "notes.txt" rfl).2.2.2
     (by decide) (fun h => absurd h (by decide))⟩

/-- C1 evaluated at the failing inputs: the source computes the
`background` flag as `background && i == pipe_commands.len() - 1`, where
`i` is the *token-loop index* (equal to the segment's token count at loop
exit), not the segment's position.  Hence `sleep 1 &` — a final (single)
segment containing a standalone `&` — parses with `background = false`,
and in `a & | b | c` the `&` in the *non-final first* segment produces
`background = true` (its 2 tokens equal `3 - 1`, the number of segments
minus one), both contradicting the claim. -/
theorem c1_background_flag_inverted :
    parse_command "sleep 1 &" =
      .ok [⟨"sleep", ["1"], none, none, false, false⟩] ∧
    parse_command "a & | b | c" =
      .ok [⟨"a", [], none, none, false, true⟩,
           ⟨"b", [], none, none, false, false⟩,
           ⟨"c", [], none, none, false, false⟩] := by
  decide

/-- C2 evaluated on the code: the method `execute_pipeline` spawns a background
process without ever calling `register_process` — the trace of
`SecurityManager` calls of a successful background run contains a single
`record_command` and no guard acquisition, and in general *no* execution
path of `execute_pipeline` ever acquires a `ProcessGuard` (so the
active-process counter is never incremented for background spawns and the
`max_background_processes` ceiling cannot take effect). -/
theorem c2_execute_pipeline_never_acquires_guard :
    Executor.execute_pipeline ⟨⟨none, none⟩, ⟨10, 4096⟩⟩ allOkEnv
        [⟨"sleep", ["5"], none, none, false, true⟩] =
      (.ok (), ⟨false, 1, [.recordCommand "sleep"]⟩) ∧
    countRegisters [SecOp.recordCommand "sleep"] = 0 ∧
    (∀ (config : ExecConfig) (env : ExecEnv) (commands : List Command),
      countRegisters (Executor.execute_pipeline config env commands).2.secOps = 0) := by
  refine ⟨by decide, by decide, ?_⟩
  intro config env commands
  have hbase := execStages_no_register config env commands.length commands 0 initPipeState
  by_cases h1 : commands.isEmpty
  · simp [Executor.execute_pipeline, h1, initPipeState, countRegisters]
  · by_cases h2 : commands.length > config.limits.max_pipeline_length
    · simp [Executor.execute_pipeline, h1, h2, initPipeState, countRegisters]
    · rcases hst : Executor.execStages config env commands.length commands 0 initPipeState
        with ⟨st, oe⟩
      rw [hst] at hbase
      have hz : countRegisters st.secOps = 0 := by
        simpa [initPipeState, countRegisters] using hbase
      cases oe with
      | some e => simp [Executor.execute_pipeline, h1, h2, hst, hz]
      | none =>
        by_cases hbg : ((commands.getLast?.map (·.background)).getD false) = true
        · simp [Executor.execute_pipeline, h1, h2, hst, hbg, hz]
        · simp [Executor.execute_pipeline, h1, h2, hst, hbg, hz]

/-- C10 evaluated on the code: the function `sanitize_input` is *not* total — with
sanitization enabled and `max_command_length = 2`, the two-character input
`aé` (3 UTF-8 bytes) reaches the truncation step, whose byte-slice
`&sanitized[..2]` falls inside the two-byte character `é` and panics
(modelled as `none`).  The disabled-sanitization half of the claim does
hold: the input is returned unchanged. -/
theorem c10_sanitize_input_panics :
    sanitize_input "aé"
        ⟨{ SecurityConfig.default with max_command_length := 2 },
          ResourceLimits.default⟩ = none ∧
    (∀ (config : Config) (input : String),
      config.security.sanitize_input = false →
      sanitize_input input config = some (.ok input)) := by
  refine ⟨by decide, ?_⟩
  intro config input h
  simp [sanitize_input, h]

lemma processParts_input_step (f : String) (rest : List String) (st : CmdAccum) (i : Nat) :
    processParts ("<" :: f :: rest) st i =
      processParts rest { st with input_redirect := some f } (i + 2) := rfl

lemma processParts_output_step (f : String) (rest : List String) (st : CmdAccum) (i : Nat) :
    processParts (">" :: f :: rest) st i =
      processParts rest { st with output_redirect := some f, append := false } (i + 2) := rfl

lemma processParts_append_step (f : String) (rest : List String) (st : CmdAccum) (i : Nat) :
    processParts (">>" :: f :: rest) st i =
      processParts rest { st with output_redirect := some f, append := true } (i + 2) := rfl

lemma processParts_plain_step (p : String) (rest : List String) (st : CmdAccum) (i : Nat)
    (h1 : p ≠ "<") (h2 : p ≠ ">") (h3 : p ≠ ">>") (h4 : p ≠ "&") :
    processParts (p :: rest) st i =
      if st.program = "" then processParts rest { st with program := p } (i + 1)
      else processParts rest { st with args := st.args ++ [p] } (i + 1) := by
  rw [processParts.eq_def]
  simp [h1, h2, h3, h4]

/-- C8: a single-segment line tokenizing to
`program arg1 arg2 < in > out` (with the first three tokens not operator
tokens and the program non-empty) parses to exactly one `Command` with
`input_redirect = in`, `output_redirect = out`, `append = false` and
`args = [arg1, arg2]`; and in general a `>` token consumes exactly the one
following token as the output file and sets `append = false`, while `>>`
does the same with `append = true`. -/
theorem c8_redirection_parsing :
    (∀ (input : String) (seg : List Char) (p a1 a2 fi fo : String),
      pipeSegments input = [seg] →
      tokenize seg = [p, a1, a2, "<", fi, ">", fo] →
      p ≠ "<" → p ≠ ">" → p ≠ ">>" → p ≠ "&" → p ≠ "" →
      a1 ≠ "<" → a1 ≠ ">" → a1 ≠ ">>" → a1 ≠ "&" →
      a2 ≠ "<" → a2 ≠ ">" → a2 ≠ ">>" → a2 ≠ "&" →
      parse_command input = .ok [⟨p, [a1, a2], some fi, some fo, false, false⟩]) ∧
    (∀ (parts : List String) (st : CmdAccum) (i : Nat) (f : String),
      processParts (">" :: f :: parts) st i =
        processParts parts { st with output_redirect := some f, append := false } (i + 2)) ∧
    (∀ (parts : List String) (st : CmdAccum) (i : Nat) (f : String),
      processParts (">>" :: f :: parts) st i =
        processParts parts { st with output_redirect := some f, append := true } (i + 2)) := by
  refine ⟨?_, fun parts st i f => processParts_output_step f parts st i,
    fun parts st i f => processParts_append_step f parts st i⟩
  intro input seg p a1 a2 fi fo hseg htok hp1 hp2 hp3 hp4 hp5 ha1 ha2 ha3 ha4 hb1 hb2 hb3 hb4
  have hinp : trimChars input.data ≠ [] := by
    intro h
    rw [pipeSegments, h] at hseg
    simp [splitChar, trimChars] at hseg
    subst hseg
    simp [tokenize, tokenizeGo] at htok
  have hproc : processParts [p, a1, a2, "<", fi, ">", fo] initAccum 0 =
      .ok (⟨p, [a1, a2], some fi, some fo, false, false⟩, 7) := by
    rw [processParts_plain_step p _ _ _ hp1 hp2 hp3 hp4]
    simp only [initAccum, if_pos rfl]
    rw [processParts_plain_step a1 _ _ _ ha1 ha2 ha3 ha4]
    simp only [if_neg hp5]
    rw [processParts_plain_step a2 _ _ _ hb1 hb2 hb3 hb4]
    simp only [if_neg hp5]
    rw [processParts_input_step, processParts_output_step]
    simp [processParts]
  have hps : parseSegments 1 [seg] [] =
      .ok [⟨p, [a1, a2], some fi, some fo, false, false⟩] := by
    simp only [parseSegments, htok, hproc]
    simp [hp5, parseSegments]
  have hmiss : missingCmdAfterPipe [seg] = false := by
    simp [missingCmdAfterPipe, missingCmdAfterPipeGo]
  simp [parse_command, if_neg hinp, hseg, hmiss, hps]

/-- Witness for C8 at a concrete input line of the given shape, plus the
two operator equations at concrete values. -/
theorem c8_redirection_parsing_witness :
    parse_command "sort a b < in.txt > out.txt" =
      .ok [⟨"sort", ["a", "b"], some "in.txt", some "out.txt", false, false⟩] ∧
    processParts [">", "f.txt"] initAccum 0 =
      processParts [] { initAccum with output_redirect := some "f.txt", append := false } 2 ∧
    processParts [">>", "f.txt"] initAccum 0 =
      processParts [] { initAccum with output_redirect := some "f.txt", append := true } 2 :=
  ⟨c8_redirection_parsing.1 "sort a b < in.txt > out.txt"
      "sort a b < in.txt > out.txt".data "sort" "a" "b" "in.txt" "out.txt"
      (by decide) (by decide)
      (by decide) (by decide) (by decide) (by decide) (by decide)
      (by decide) (by decide) (by decide) (by decide)
      (by decide) (by decide) (by decide) (by decide),
   c8_redirection_parsing.2.1 [] initAccum 0 "f.txt",
   c8_redirection_parsing.2.2 [] initAccum 0 "f.txt"⟩

/-- Witness for C10's disabled-sanitization half at a concrete input. -/
theorem c10_sanitize_input_panics_witness :
    sanitize_input "ls"
        ⟨{ SecurityConfig.default with sanitize_input := false },
          ResourceLimits.default⟩ = some (.ok "ls") :=
  c10_sanitize_input_panics.2
    ⟨{ SecurityConfig.default with sanitize_input := false },
      ResourceLimits.default⟩ "ls" rfl

end ShellT
